import Mathlib

/-!
Verification of the `mousetrap` X11 connection-handshake client.

Shallow embedding of the repository's binary codec and handshake logic:

* `src/utils.rs`    — fixed-width integer decoding (`deserialize_into`),
  string decoding (`deserialize_into_string`), record-list decoding
  (`deserialize_into_vec`), alignment trimming (`trim_by_padding`);
* `src/auth.rs`     — the `.Xauthority` credential-file reader;
* `src/connection.rs` — `ConnSetupRequest::serialize`,
  `ConnSetup::parse_into` / `from_bytes`, `parse_conf`, and the
  credential-selection step of `Stream::authenticate`.

Bytes are modelled as `Nat` (values below 256 in any real stream), byte
slices as `List Nat`.  Rust `Result` becomes `Except`, Rust panics become
an explicit `none` / dedicated constructor of the modelled result type.
The host is taken to be little-endian, matching the
`#[cfg(target_endian = "little")]` branch of `src/byteorder.rs`.
-/

namespace Mousetrap

/-- Errors of `src/errors.rs` (`ParseError`). -/
inductive ParseError where
  | OutOfBound
  | NotEnoughData
  | OverFlow
  | Failed
  | InvalidLength
deriving DecidableEq

/-- Errors of `src/errors.rs` (`ConnectionError`). -/
inductive ConnectionError where
  | InvalidSocketPath
  | ConnectionRefused
  | ConnectionNotEstablished
  | FurtherAuthenticationRequired
  | InvalidResponseFromServer
deriving DecidableEq

/-- Constant `BYTE_ORDER` of `src/byteorder.rs` on a little-endian host: `b'l' = 108`. -/
def BYTE_ORDER : Nat := 108

/-- Native (little-endian host) multi-byte integer value of a byte list,
least significant byte first — `uN::from_ne_bytes`. -/
def fromNeBytes : List Nat → Nat
  | [] => 0
  | b :: rest => b + 256 * fromNeBytes rest

/-- Encoder `u16::to_ne_bytes` on a little-endian host. -/
def u16_ne (n : Nat) : List Nat := [n % 256, n / 256 % 256]

/-- The fixed-width unsigned integer types for which `src/utils.rs`
implements the `Deserialize` trait. -/
inductive IntTy where
  | u8
  | u16
  | u32
  | u64
deriving DecidableEq

/-- Size `core::mem::size_of::<T>()` for the four `Deserialize` impls. -/
def IntTy.size : IntTy → Nat
  | .u8 => 1
  | .u16 => 2
  | .u32 => 4
  | .u64 => 8

/-- The four `Deserialize` impls of `src/utils.rs` (lines 46-84): each
checks the slice length against the exact type size — `u8`/`u16` answer
`OutOfBound` on a mismatch, `u32`/`u64` answer `InvalidLength` — and
otherwise decodes with `from_ne_bytes`.  (The `try_into` conversion after
the length check cannot fail, so its `ParseError::Failed` arm is dead.) -/
def IntTy.deserialize : IntTy → List Nat → Except ParseError Nat
  | .u8, bytes => if bytes.length ≠ 1 then .error .OutOfBound else .ok (fromNeBytes bytes)
  | .u16, bytes => if bytes.length ≠ 2 then .error .OutOfBound else .ok (fromNeBytes bytes)
  | .u32, bytes => if bytes.length ≠ 4 then .error .InvalidLength else .ok (fromNeBytes bytes)
  | .u64, bytes => if bytes.length ≠ 8 then .error .InvalidLength else .ok (fromNeBytes bytes)

/-- Function `deserialize_into` of `src/utils.rs` (lines 12-21): `bytes.get(..size)`
yields the first `size` bytes when available (`NotEnoughData` otherwise),
`T::deserialize` decodes them, and the remainder `&bytes[size..]` is
returned alongside the value. -/
def deserialize_into (t : IntTy) (bytes : List Nat) : Except ParseError (Nat × List Nat) :=
  if t.size ≤ bytes.length then
    match t.deserialize (bytes.take t.size) with
    | .error e => .error e
    | .ok v => .ok (v, bytes.drop t.size)
  else .error .NotEnoughData

/-- Function `deserialize_into_string` of `src/utils.rs` (lines 27-36); the decoded
text is kept as its raw bytes (the Rust lossily coerces them to a
`String`, rejecting nothing). -/
def deserialize_into_string (bytes : List Nat) (length : Nat) :
    Except ParseError (List Nat × List Nat) :=
  if bytes.length < length then .error .NotEnoughData
  else .ok (bytes.take length, bytes.drop length)

lemma deserialize_into_short (t : IntTy) (bytes : List Nat) (h : bytes.length < t.size) :
    deserialize_into t bytes = .error ParseError.NotEnoughData := by
  unfold deserialize_into
  rw [if_neg (by omega)]

lemma take_length_of_le {α : Type} (l : List α) (n : Nat) (h : n ≤ l.length) :
    (l.take n).length = n := by
  simp [List.length_take]
  omega

lemma deserialize_into_ok (t : IntTy) (bytes : List Nat) (h : t.size ≤ bytes.length) :
    deserialize_into t bytes = .ok (fromNeBytes (bytes.take t.size), bytes.drop t.size) := by
  have hlen : (bytes.take t.size).length = t.size := take_length_of_le bytes t.size h
  unfold deserialize_into
  rw [if_pos h]
  cases t <;>
    simp only [IntTy.deserialize, IntTy.size] at hlen ⊢ <;>
    rw [if_neg (by omega)]

/-- Claim C7: for every fixed-width unsigned integer type and every byte
slice shorter than its size, `deserialize_into` fails with
`NotEnoughData`; for every slice of at least that many bytes it succeeds,
returning the decoded value and the remainder after `size_of(T)` bytes.
The model is a total function over the slice's first `size` bytes, so no
out-of-bounds access or panic is possible. -/
theorem deserialize_into_bounds (t : IntTy) (bytes : List Nat) :
    (bytes.length < t.size → deserialize_into t bytes = .error ParseError.NotEnoughData) ∧
    (t.size ≤ bytes.length →
      deserialize_into t bytes = .ok (fromNeBytes (bytes.take t.size), bytes.drop t.size)) :=
  ⟨deserialize_into_short t bytes, deserialize_into_ok t bytes⟩

/-- Witness for C7 at concrete inputs: a 2-byte buffer is too short for a
`u32`, and a `u16` decoded from `[1, 2, 3]` is `513` with remainder `[3]`. -/
theorem deserialize_into_bounds_witness :
    deserialize_into IntTy.u32 [1, 2] = .error ParseError.NotEnoughData ∧
    deserialize_into IntTy.u16 [1, 2, 3] = .ok (513, [3]) := by
  constructor
  · exact (deserialize_into_bounds IntTy.u32 [1, 2]).1 (by decide)
  · have h := (deserialize_into_bounds IntTy.u16 [1, 2, 3]).2 (by decide)
    rw [h]
    rfl

/-- Claim C9: through the public entry point `deserialize_into`, the only
error any of the four integer `Deserialize` impls can surface is
`NotEnoughData` — the sub-slice handed to `T::deserialize` always has
exactly `size_of(T)` bytes, so the `OutOfBound` / `InvalidLength` /
`Failed` arms inside the impls are unreachable and every call either
fails with `NotEnoughData` or succeeds. -/
theorem deserialize_into_only_not_enough_data (t : IntTy) (bytes : List Nat) :
    deserialize_into t bytes = .error ParseError.NotEnoughData ∨
    deserialize_into t bytes = .ok (fromNeBytes (bytes.take t.size), bytes.drop t.size) := by
  rcases Nat.lt_or_ge bytes.length t.size with h | h
  · exact Or.inl (deserialize_into_short t bytes h)
  · exact Or.inr (deserialize_into_ok t bytes h)

/-- Function `trim_by_padding` of `src/utils.rs` (lines 178-185): computes
`p = length % boundary` and, when `p > 0`, drops the first `p` bytes of
the slice.  `none` models the Rust panics (`%` by a zero `boundary`, and
`&slice[p..]` when `p` exceeds the slice length). -/
def trim_by_padding (slice : List Nat) (length boundary : Nat) : Option (List Nat) :=
  if boundary = 0 then none
  else
    let p := length % boundary
    if p > 0 then
      if p ≤ slice.length then some (slice.drop p) else none
    else some slice

/-- Claim C2 (code bug): at consumed length `L = 1` the code drops
`L % 4 = 1` byte, whereas the claimed re-alignment formula
`(4 − L % 4) % 4 = 3` would drop three — so `trim_by_padding` does not
re-align the slice to a 4-byte boundary as its own documentation and the
spec's `align_to_4` contract demand. -/
theorem trim_by_padding_failing_input :
    trim_by_padding [10, 20, 30, 40, 50] 1 4 = some [20, 30, 40, 50] ∧
    trim_by_padding [10, 20, 30, 40, 50] 1 4 ≠
      some (List.drop ((4 - 1 % 4) % 4) [10, 20, 30, 40, 50]) :=
  ⟨rfl, by decide⟩

/-- Record `Format` of `src/protocol.rs`: one pixmap-format record. -/
structure Format where
  depth : Nat
  bits_per_pixel : Nat
  scanline_pad : Nat
deriving DecidableEq

/-- The `DeserializeList for Format` impl of `src/utils.rs` (lines
137-161): three `u8` reads from the front of an 8-byte record. -/
def Format.deserialize (bytes : List Nat) : Except ParseError Format :=
  match deserialize_into .u8 bytes with
  | .error e => .error e
  | .ok (depth, rest) =>
    match deserialize_into .u8 rest with
    | .error e => .error e
    | .ok (bits_per_pixel, rest) =>
      match deserialize_into .u8 rest with
      | .error e => .error e
      | .ok (scanline_pad, _) => .ok ⟨depth, bits_per_pixel, scanline_pad⟩

/-- Size `<Format as DeserializeList>::size()`: 8 bytes per record. -/
def Format.fixedSize : Nat := 8

/-- The per-record slice-and-decode loop inside `deserialize_into_vec`:
record `i` is decoded from `result[start..end]` with
`start = i * element_size`; any decoder error short-circuits via `?`. -/
def decodeChunks {α : Type} (size : Nat) (dec : List Nat → Except ParseError α) :
    Nat → List Nat → Except ParseError (List α)
  | 0, _ => .ok []
  | n + 1, src =>
    if size ≤ src.length then
      match dec (src.take size) with
      | .error e => .error e
      | .ok v =>
        match decodeChunks size dec n (src.drop size) with
        | .error e => .error e
        | .ok vs => .ok (v :: vs)
    else .error .NotEnoughData

/-- Function `deserialize_into_vec` of `src/utils.rs` (lines 87-120), generic over
the `DeserializeList` impl `(size, dec)`: `element_size.checked_mul(n)`
fails with `OverFlow` when the product does not fit a 64-bit `usize`;
a slice shorter than the product fails with `NotEnoughData`; otherwise
the slice is split at the product and decoded record by record. -/
def deserialize_into_vec {α : Type} (size : Nat) (dec : List Nat → Except ParseError α)
    (bytes : List Nat) (n : Nat) : Except ParseError (List α × List Nat) :=
  let tot_length := size * n
  if tot_length < 2 ^ 64 then
    if bytes.length < tot_length then .error .NotEnoughData
    else
      match decodeChunks size dec n (bytes.take tot_length) with
      | .error e => .error e
      | .ok vs => .ok (vs, bytes.drop tot_length)
  else .error .OverFlow

/-- The consecutive `size`-byte chunks of a slice, used to state what
`deserialize_into_vec` decodes. -/
def chunksOf (size : Nat) : Nat → List Nat → List (List Nat)
  | 0, _ => []
  | n + 1, bytes => bytes.take size :: chunksOf size n (bytes.drop size)

lemma chunksOf_length (size n : Nat) (bytes : List Nat) :
    (chunksOf size n bytes).length = n := by
  induction n generalizing bytes with
  | zero => rfl
  | succ m ih => simp [chunksOf, ih]

lemma decodeChunks_ok {α : Type} (size : Nat) (dec : List Nat → Except ParseError α)
    (f : List Nat → α) (hdec : ∀ chunk, chunk.length = size → dec chunk = .ok (f chunk)) :
    ∀ (n : Nat) (src : List Nat), size * n ≤ src.length →
      decodeChunks size dec n src = .ok ((chunksOf size n src).map f) := by
  intro n
  induction n with
  | zero => intro src _; rfl
  | succ m ih =>
    intro src hlen
    rw [Nat.mul_succ] at hlen
    have hsize : size ≤ src.length := by omega
    have htake : (src.take size).length = size := take_length_of_le src size hsize
    have hrec : size * m ≤ (src.drop size).length := by
      simp [List.length_drop]
      omega
    simp only [decodeChunks, if_pos hsize, hdec (src.take size) htake, ih (src.drop size) hrec,
      chunksOf, List.map_cons]

lemma chunksOf_take (size n : Nat) (bytes : List Nat) :
    chunksOf size n (bytes.take (size * n)) = chunksOf size n bytes := by
  induction n generalizing bytes with
  | zero => rfl
  | succ m ih =>
    simp only [chunksOf]
    congr 1
    · rw [List.take_take]
      congr 1
      rw [Nat.mul_succ]
      omega
    · rw [List.drop_take]
      have : size * (m + 1) - size = size * m := by
        rw [Nat.mul_succ]
        omega
      rw [this, ih]

/-- Claim C6: `deserialize_into_vec` with `size × n` overflowing the
64-bit platform size type fails with `OverFlow`; with a slice shorter
than `size × n` it fails with `NotEnoughData` (in both error cases it
produces no records and no remainder); otherwise it decodes exactly the
`n` consecutive `size`-byte chunks and returns the remainder starting at
offset `size × n`.  The hypothesis `hdec` states that the record decoder
succeeds on every exact-size chunk, as the `Format` impl does. -/
theorem deserialize_into_vec_spec {α : Type} (size n : Nat)
    (dec : List Nat → Except ParseError α) (f : List Nat → α) (bytes : List Nat)
    (hdec : ∀ chunk, chunk.length = size → dec chunk = .ok (f chunk)) :
    (2 ^ 64 ≤ size * n → deserialize_into_vec size dec bytes n = .error ParseError.OverFlow) ∧
    (size * n < 2 ^ 64 → bytes.length < size * n →
      deserialize_into_vec size dec bytes n = .error ParseError.NotEnoughData) ∧
    (size * n < 2 ^ 64 → size * n ≤ bytes.length →
      deserialize_into_vec size dec bytes n =
        .ok ((chunksOf size n bytes).map f, bytes.drop (size * n)) ∧
      ((chunksOf size n bytes).map f).length = n) := by
  refine ⟨fun hover => ?_, fun hfit hshort => ?_, fun hfit hlen => ⟨?_, ?_⟩⟩
  · unfold deserialize_into_vec
    rw [if_neg (by omega)]
  · unfold deserialize_into_vec
    rw [if_pos (by omega), if_pos (by omega)]
  · have htake : size * n ≤ (bytes.take (size * n)).length := by
      rw [take_length_of_le bytes (size * n) hlen]
    unfold deserialize_into_vec
    rw [if_pos (by omega), if_neg (by omega),
      decodeChunks_ok size dec f hdec n (bytes.take (size * n)) htake, chunksOf_take]
  · rw [List.length_map, chunksOf_length]

/-- The value `Format::deserialize` reads off an 8-byte record: its first
three bytes. -/
def formatOfChunk (chunk : List Nat) : Format :=
  ⟨fromNeBytes (chunk.take 1), fromNeBytes ((chunk.drop 1).take 1),
    fromNeBytes (((chunk.drop 1).drop 1).take 1)⟩

lemma format_deserialize_chunk :
    ∀ chunk : List Nat, chunk.length = 8 → Format.deserialize chunk = .ok (formatOfChunk chunk) := by
  intro chunk h
  have h1 := deserialize_into_ok .u8 chunk (by simp [IntTy.size]; omega)
  have h2 := deserialize_into_ok .u8 (chunk.drop 1)
    (by simp [IntTy.size, List.length_drop]; omega)
  have h3 := deserialize_into_ok .u8 ((chunk.drop 1).drop 1)
    (by simp [IntTy.size, List.length_drop]; omega)
  simp only [IntTy.size] at h1 h2 h3
  simp only [Format.deserialize, h1, h2, h3, formatOfChunk]

/-- Witness for C6: two 8-byte `Format` records (`(24,32,32)` and
`(8,8,8)`) decode from a 16-byte slice with nothing left over. -/
theorem deserialize_into_vec_spec_witness :
    deserialize_into_vec 8 Format.deserialize
        [24, 32, 32, 0, 0, 0, 0, 0, 8, 8, 8, 0, 0, 0, 0, 0] 2 =
      .ok ([⟨24, 32, 32⟩, ⟨8, 8, 8⟩], []) := by
  have h := ((deserialize_into_vec_spec 8 2 Format.deserialize formatOfChunk
      [24, 32, 32, 0, 0, 0, 0, 0, 8, 8, 8, 0, 0, 0, 0, 0]
      format_deserialize_chunk).2.2 (by decide) (by decide)).1
  rw [h]
  rfl

/-- Record `XAuthEntry` of `src/auth.rs`: one record of the `.Xauthority` file. -/
structure XAuthEntry where
  family : Nat
  address : List Nat
  display_number : List Nat
  authorization_protocol_name : List Nat
  authorization_protocol_data : List Nat
deriving DecidableEq

/-- Record `ConnSetupRequest` of `src/connection.rs` (fields as in the source;
integer fields hold byte/`u16` values). -/
structure ConnSetupRequest where
  byte_order : Nat
  protocol_major_version : Nat
  protocol_minor_version : Nat
  authorization_protocol_name : List Nat
  authorization_protocol_data : List Nat
deriving DecidableEq

/-- Constructor `ConnSetupRequest::new` (`src/connection.rs` lines 233-241): fixed
byte-order marker and protocol version 11.0, credentials from the entry. -/
def ConnSetupRequest.new (entry : XAuthEntry) : ConnSetupRequest :=
  { byte_order := BYTE_ORDER
  , protocol_major_version := 11
  , protocol_minor_version := 0
  , authorization_protocol_name := entry.authorization_protocol_name
  , authorization_protocol_data := entry.authorization_protocol_data }

/-- Method `ConnSetupRequest::serialize` (`src/connection.rs` lines 266-310).
`none` models the panic of `u16::try_from(len).unwrap()` when an
authorization section exceeds 65535 bytes; otherwise the payload is
built exactly as the source appends it, each alignment pad computed from
`payload.len()` — the running total — at the moment it is emitted. -/
def ConnSetupRequest.serialize (r : ConnSetupRequest) : Option (List Nat) :=
  if 65535 < r.authorization_protocol_name.length then none
  else if 65535 < r.authorization_protocol_data.length then none
  else
    let payload := [r.byte_order] ++ [0] ++ u16_ne r.protocol_major_version
      ++ u16_ne r.protocol_minor_version ++ u16_ne r.authorization_protocol_name.length
      ++ u16_ne r.authorization_protocol_data.length ++ [0, 0]
    let payload := payload ++ r.authorization_protocol_name
    let payload := payload ++ List.replicate ((4 - payload.length % 4) % 4) 0
    let payload := payload ++ r.authorization_protocol_data
    let payload := payload ++ List.replicate ((4 - payload.length % 4) % 4) 0
    some payload

/-- Claim C1: with both authorization sections representable as `u16`,
`serialize` produces exactly the claimed layout — byte-order marker, one
zero pad byte, native-order 16-bit fields 11 / 0 / N / D, two zero pad
bytes, the name, `(4 − (12 + N) mod 4) mod 4` zero bytes (the pad against
the running total of 12 + N bytes), the data, and the final pad against
the full running total. -/
theorem connSetupRequest_serialize_layout (e : XAuthEntry)
    (h1 : e.authorization_protocol_name.length ≤ 65535)
    (h2 : e.authorization_protocol_data.length ≤ 65535) :
    (ConnSetupRequest.new e).serialize = some
      ([BYTE_ORDER] ++ [0] ++ u16_ne 11 ++ u16_ne 0
        ++ u16_ne e.authorization_protocol_name.length
        ++ u16_ne e.authorization_protocol_data.length ++ [0, 0]
        ++ e.authorization_protocol_name
        ++ List.replicate ((4 - (12 + e.authorization_protocol_name.length) % 4) % 4) 0
        ++ e.authorization_protocol_data
        ++ List.replicate
            ((4 - (12 + e.authorization_protocol_name.length
                + (4 - (12 + e.authorization_protocol_name.length) % 4) % 4
                + e.authorization_protocol_data.length) % 4) % 4) 0) := by
  have hname : ([BYTE_ORDER] ++ [0] ++ u16_ne 11 ++ u16_ne 0
      ++ u16_ne e.authorization_protocol_name.length
      ++ u16_ne e.authorization_protocol_data.length ++ [0, 0]
      ++ e.authorization_protocol_name).length
      = 12 + e.authorization_protocol_name.length := by
    simp [u16_ne]
    omega
  simp only [ConnSetupRequest.new, ConnSetupRequest.serialize]
  rw [if_neg (by simp; omega), if_neg (by simp; omega)]
  rw [hname]
  have hdata : ([BYTE_ORDER] ++ [0] ++ u16_ne 11 ++ u16_ne 0
      ++ u16_ne e.authorization_protocol_name.length
      ++ u16_ne e.authorization_protocol_data.length ++ [0, 0]
      ++ e.authorization_protocol_name
      ++ List.replicate ((4 - (12 + e.authorization_protocol_name.length) % 4) % 4) 0
      ++ e.authorization_protocol_data).length
      = 12 + e.authorization_protocol_name.length
        + (4 - (12 + e.authorization_protocol_name.length) % 4) % 4
        + e.authorization_protocol_data.length := by
    simp [u16_ne]
    omega
  rw [hdata]

/-- Witness for C1 at the spec's literal end-to-end input: a 19-byte
authorization name and 16-byte cookie serialize to exactly 48 bytes. -/
theorem connSetupRequest_serialize_layout_witness :
    (ConnSetupRequest.new
        ⟨0, [], [48], List.replicate 19 77, List.replicate 16 170⟩).serialize
      = some
        ([BYTE_ORDER] ++ [0] ++ u16_ne 11 ++ u16_ne 0
          ++ u16_ne (List.replicate 19 77).length
          ++ u16_ne (List.replicate 16 170).length ++ [0, 0]
          ++ List.replicate 19 77
          ++ List.replicate ((4 - (12 + (List.replicate 19 77).length) % 4) % 4) 0
          ++ List.replicate 16 170
          ++ List.replicate
              ((4 - (12 + (List.replicate 19 77).length
                  + (4 - (12 + (List.replicate 19 77).length) % 4) % 4
                  + (List.replicate 16 170).length) % 4) % 4) 0) ∧
    (Option.map List.length
        (ConnSetupRequest.new
          ⟨0, [], [48], List.replicate 19 77, List.replicate 16 170⟩).serialize)
      = some 48 := by
  constructor
  · exact connSetupRequest_serialize_layout
      ⟨0, [], [48], List.replicate 19 77, List.replicate 16 170⟩ (by decide) (by decide)
  · rfl

/-- Claim C10: `serialize` panics — modelled as `none` — exactly when an
authorization section is longer than 65535 bytes (the failed
`u16::try_from(...).unwrap()`); at or below that bound it always
produces a payload, so length ≤ 65535 is the serialization precondition. -/
theorem connSetupRequest_serialize_none_iff (r : ConnSetupRequest) :
    r.serialize = none ↔
      65535 < r.authorization_protocol_name.length ∨
      65535 < r.authorization_protocol_data.length := by
  unfold ConnSetupRequest.serialize
  split_ifs with hA hB
  · simp [hA]
  · simp [hB]
  · simp [hA, hB]

/-- Outcomes of the credential-selection step of `Stream::authenticate`
(`src/connection.rs` lines 466-473).  `panics` models a Rust panic;
`noCredentials` is the classified failure the spec posits for an empty
credential sequence — the source has no such error variant and never
produces this outcome. -/
inductive AuthOutcome where
  | panics
  | noCredentials
  | request (r : ConnSetupRequest)
deriving DecidableEq

/-- The credential-selection step of `Stream::authenticate`: the source
runs `ConnSetupRequest::new(xauth_entries[0].clone())`, so an empty
entry sequence hits an out-of-bounds index (a panic), and otherwise the
request is built from the first entry. -/
def authenticate_request (entries : List XAuthEntry) : AuthOutcome :=
  match entries with
  | [] => .panics
  | e :: _ => .request (ConnSetupRequest.new e)

/-- Claim C5 counterexample: on an empty credential sequence the driver
panics (out-of-bounds `xauth_entries[0]`); it does not fail with a
classified `NoCredentials` error — no such error exists in the source. -/
theorem authenticate_request_empty_counterexample :
    authenticate_request [] = AuthOutcome.panics ∧
    authenticate_request [] ≠ AuthOutcome.noCredentials := by
  exact ⟨rfl, by decide⟩

/-- Claim C5 as amended: on an empty credential sequence the handshake
driver panics rather than returning a classified failure; on a non-empty
sequence it builds the setup request from the first entry. -/
theorem authenticate_request_first_entry :
    authenticate_request [] = AuthOutcome.panics ∧
    ∀ (e : XAuthEntry) (rest : List XAuthEntry),
      authenticate_request (e :: rest) = AuthOutcome.request (ConnSetupRequest.new e) :=
  ⟨rfl, fun _ _ => rfl⟩

/-- Rust's `str::parse::<u8>`: an optional leading plus sign followed by
one or more ASCII digits, failing on anything else and on values above
255. -/
def parse_u8 (s : List Char) : Option Nat :=
  let digits := match s with
    | c :: rest => if c = '+' then rest else c :: rest
    | [] => []
  if digits ≠ [] ∧ digits.all Char.isDigit then
    let v := digits.foldl (fun acc c => acc * 10 + (c.toNat - 48)) 0
    if v ≤ 255 then some v else none
  else none

/-- Record `XConf` of `src/connection.rs` / `src/main.rs`. -/
structure XConf where
  display_number : Nat
  host : List Char
  port : Nat
  socket_path : List Char
deriving DecidableEq

/-- Function `parse_conf` (`src/connection.rs` lines 211-229 and `src/main.rs`
lines 27-45, identical): strips every leading colon from the display
name, parses the remainder as a `u8` defaulting to 0, adds that number
to port 6000 — and appends the *raw remainder string* (not the parsed
number) to the socket-path prefix. -/
def parse_conf (display_name : List Char) : XConf :=
  let display_number_text := display_name.dropWhile (fun c => c = ':')
  let d := (parse_u8 display_number_text).getD 0
  { display_number := d
  , host := ("127.0.0.1").toList
  , port := 6000 + d
  , socket_path := ("/tmp/.X11-unix/X").toList ++ display_number_text }

/-- Claim C8 counterexample: for display name `":a"` the text after the
colon does not parse as a display number; the port falls back to 6000 as
claimed, but the socket path becomes `/tmp/.X11-unix/Xa` — not the
`/tmp/.X11-unix/X0` the claim's display-number-0 fallback requires. -/
theorem parse_conf_counterexample :
    (parse_conf ((":a").toList)).socket_path = ("/tmp/.X11-unix/Xa").toList ∧
    (parse_conf ((":a").toList)).socket_path ≠ ("/tmp/.X11-unix/X0").toList ∧
    (parse_conf ((":a").toList)).port = 6000 := by
  refine ⟨rfl, by decide, rfl⟩

/-- Claim C8 as amended: `parse_conf` fixes the host to `127.0.0.1` and
derives the port as 6000 plus the parsed display number, behaving as
display 0 whenever the text after the leading colons does not parse as a
`u8`; the domain-socket path, however, is the well-known prefix followed
by that raw text itself, not by the numeric display number. -/
theorem parse_conf_amended (s : List Char) :
    (parse_conf s).display_number = (parse_u8 (s.dropWhile (fun c => c = ':'))).getD 0 ∧
    (parse_conf s).host = ("127.0.0.1").toList ∧
    (parse_conf s).port = 6000 + (parse_u8 (s.dropWhile (fun c => c = ':'))).getD 0 ∧
    (parse_conf s).socket_path
      = ("/tmp/.X11-unix/X").toList ++ s.dropWhile (fun c => c = ':') :=
  ⟨rfl, rfl, rfl, rfl⟩

/-- Enum `BitOrder` of `src/connection.rs`. -/
inductive BitOrder where
  | LeastSignificant
  | MostSignificant
deriving DecidableEq

/-- Record `VisualType` of `src/connection.rs` (the visual class is its 0-5
encoding). -/
structure VisualType where
  visual_id : Nat
  class_code : Nat
  red_mask : Nat
  green_mask : Nat
  blue_mask : Nat
  bits_per_rgb_value : Nat
  colormap_entries : Nat
deriving DecidableEq

/-- Record `Depth` of `src/connection.rs`. -/
structure Depth where
  depth : Nat
  visuals : List VisualType
deriving DecidableEq

/-- Enum `BackingStore` of `src/connection.rs`. -/
inductive BackingStore where
  | Never
  | WhenMapped
  | Always
deriving DecidableEq

/-- Record `Screen` of `src/connection.rs`. -/
structure Screen where
  root : Nat
  width_in_px : Nat
  height_in_px : Nat
  width_in_mm : Nat
  height_in_mm : Nat
  allowed_depths : List Depth
  root_depth : Nat
  root_visual : Nat
  default_colormap : Nat
  white_pixel : Nat
  black_pixel : Nat
  min_installed_maps : Nat
  max_installed_maps : Nat
  backing_stores : BackingStore
  save_unders : Bool
  current_input_masks : Nat
deriving DecidableEq

/-- Record `ConnSetup` of `src/connection.rs`: the decoded success response
(vendor text kept as raw bytes). -/
structure ConnSetup where
  success : Nat
  protocol_major_version : Nat
  protocol_minor_version : Nat
  vendor : List Nat
  release_number : Nat
  resource_id_base : Nat
  resource_id_mask : Nat
  image_byte_order : Nat
  bitmap_scanline_unit : Nat
  bitmap_scanline_pad : Nat
  bitmap_bit_order : BitOrder
  pixmap_formats : List Format
  roots : List Screen
  motion_buffer_size : Nat
  maximum_request_length : Nat
  min_keycode : Nat
  max_keycode : Nat
deriving DecidableEq

/-- Result of `ConnSetup::from_bytes` (`src/connection.rs` lines
336-366): the body ends in `todo!()`, so the function can only propagate
a `ParseError` or panic — it never returns a `ConnSetup`. -/
inductive FromBytesResult where
  | fails (e : ParseError)
  | panics
deriving DecidableEq

/-- One `deserialize_into::<T>(rest)?` step of `from_bytes`: an error
propagates, a success feeds the remainder to the continuation. -/
def readStep (t : IntTy) (bytes : List Nat) (k : Nat → List Nat → FromBytesResult) :
    FromBytesResult :=
  match deserialize_into t bytes with
  | .error e => .fails e
  | .ok (v, rest) => k v rest

/-- Method `ConnSetup::from_bytes` (`src/connection.rs` lines 336-366), field
for field: success byte, a 1-byte skip (`&rest[1..]` — a panic when
empty), three `u16`s, four `u32`s, two `u16`s, eight `u8`s, a 4-byte
skip (`&rest[4..]` — a panic when shorter), the vendor string, and then
the source's `todo!()`, which panics unconditionally. -/
def ConnSetup.from_bytes (bytes : List Nat) : FromBytesResult :=
  readStep .u8 bytes fun _success rest =>
  if rest.length < 1 then .panics else
  readStep .u16 (rest.drop 1) fun _major rest =>
  readStep .u16 rest fun _minor rest =>
  readStep .u16 rest fun _ln rest =>
  readStep .u32 rest fun _release rest =>
  readStep .u32 rest fun _base rest =>
  readStep .u32 rest fun _mask rest =>
  readStep .u32 rest fun _motion rest =>
  readStep .u16 rest fun vendor_length rest =>
  readStep .u16 rest fun _maxreq rest =>
  readStep .u8 rest fun _nscreens rest =>
  readStep .u8 rest fun _nformats rest =>
  readStep .u8 rest fun _ibo rest =>
  readStep .u8 rest fun _bbo rest =>
  readStep .u8 rest fun _bsu rest =>
  readStep .u8 rest fun _bsp rest =>
  readStep .u8 rest fun _minkc rest =>
  readStep .u8 rest fun _maxkc rest =>
  if rest.length < 4 then .panics else
  match deserialize_into_string (rest.drop 4) vendor_length with
  | .error e => .fails e
  | .ok _ => .panics

/-- Method `ConnSetup::parse_into` (`src/connection.rs` lines 315-334): dispatch
on `bytes.get(0)`.  `none` models a panic: on first byte 1 the source
runs `Self::from_bytes(bytes).unwrap()`, and since `from_bytes` either
fails (making `unwrap` panic) or panics itself, the status-1 arm never
returns. -/
def ConnSetup.parse_into (bytes : List Nat) : Option (Except ConnectionError ConnSetup) :=
  match bytes.head? with
  | some 0 => some (.error .ConnectionRefused)
  | some 1 =>
    match ConnSetup.from_bytes bytes with
    | .fails _ => none
    | .panics => none
  | some 2 => some (.error .FurtherAuthenticationRequired)
  | _ => some (.error .InvalidResponseFromServer)

/-- A minimal well-formed status-1 response: status byte 1, protocol
header fields, vendor length 0, zero formats and zero screens — 40 bytes
in total, exactly the record the claim says decodes to `Established`. -/
def status1Response : List Nat := 1 :: List.replicate 39 0

/-- Claim C3 (code bug): status bytes 0, 2 and anything unrecognized are
classified as claimed, but a buffer with first byte 1 — even this fully
well-formed 40-byte record — makes `parse_into` panic (`none`): the
source's `from_bytes` ends in `todo!()` and its result is `unwrap`ped,
so no status-1 input can yield `Established`. -/
theorem parse_into_status1_panics :
    ConnSetup.parse_into status1Response = none ∧
    ConnSetup.parse_into (0 :: List.replicate 39 0) =
      some (.error ConnectionError.ConnectionRefused) ∧
    ConnSetup.parse_into (2 :: List.replicate 39 0) =
      some (.error ConnectionError.FurtherAuthenticationRequired) ∧
    ConnSetup.parse_into (7 :: List.replicate 39 0) =
      some (.error ConnectionError.InvalidResponseFromServer) ∧
    ConnSetup.parse_into [] = some (.error ConnectionError.InvalidResponseFromServer) :=
  ⟨rfl, rfl, rfl, rfl, rfl⟩

/-- Helper `read_preceding_bytes` of `src/auth.rs` (lines 35-41): read exactly
two bytes and combine them MSB-first (`u16::from_be_bytes`); a short
read fails. -/
def read_preceding_bytes (bytes : List Nat) : Option (Nat × List Nat) :=
  match bytes with
  | b0 :: b1 :: rest => some (b0 * 256 + b1, rest)
  | _ => none

/-- Helper `read_subsequent_bytes` of `src/auth.rs` (lines 47-54): a 2-byte
big-endian length, then exactly that many bytes; a short read on either
part fails. -/
def read_subsequent_bytes (bytes : List Nat) : Option (List Nat × List Nat) :=
  match read_preceding_bytes bytes with
  | none => none
  | some (len, rest) =>
    if rest.length < len then none else some (rest.take len, rest.drop len)

/-- Helper `read_xauth_entry` of `src/auth.rs` (lines 68-83): family, address,
display number, authorization name, authorization data, in that order;
any short read fails the whole record. -/
def read_xauth_entry (bytes : List Nat) : Option (XAuthEntry × List Nat) :=
  match read_preceding_bytes bytes with
  | none => none
  | some (family, r1) =>
    match read_subsequent_bytes r1 with
    | none => none
    | some (address, r2) =>
      match read_subsequent_bytes r2 with
      | none => none
      | some (display_number, r3) =>
        match read_subsequent_bytes r3 with
        | none => none
        | some (auth_name, r4) =>
          match read_subsequent_bytes r4 with
          | none => none
          | some (auth_data, r5) =>
            some (⟨family, address, display_number, auth_name, auth_data⟩, r5)

lemma read_preceding_bytes_length {bytes : List Nat} {v : Nat} {rest : List Nat}
    (h : read_preceding_bytes bytes = some (v, rest)) :
    bytes.length = rest.length + 2 := by
  match bytes with
  | [] => exact absurd h (by simp [read_preceding_bytes])
  | [b0] => exact absurd h (by simp [read_preceding_bytes])
  | b0 :: b1 :: r =>
    simp only [read_preceding_bytes, Option.some.injEq, Prod.mk.injEq] at h
    simp [← h.2]

lemma read_subsequent_bytes_length {bytes : List Nat} {v rest : List Nat}
    (h : read_subsequent_bytes bytes = some (v, rest)) :
    rest.length + 2 ≤ bytes.length := by
  unfold read_subsequent_bytes at h
  split at h
  · exact absurd h (by simp)
  · rename_i len r1 hp
    split at h
    · exact absurd h (by simp)
    · rename_i hc
      simp only [Option.some.injEq, Prod.mk.injEq] at h
      have hlen := read_preceding_bytes_length hp
      have : rest.length ≤ r1.length := by
        rw [← h.2]
        simp [List.length_drop]
      omega

lemma read_xauth_entry_length {bytes : List Nat} {e : XAuthEntry} {rest : List Nat}
    (h : read_xauth_entry bytes = some (e, rest)) :
    rest.length < bytes.length := by
  unfold read_xauth_entry at h
  split at h
  · exact absurd h (by simp)
  · rename_i family r1 h0
    split at h
    · exact absurd h (by simp)
    · rename_i address r2 h1
      split at h
      · exact absurd h (by simp)
      · rename_i display r3 h2
        split at h
        · exact absurd h (by simp)
        · rename_i nm r4 h3
          split at h
          · exact absurd h (by simp)
          · rename_i dat r5 h4
            simp only [Option.some.injEq, Prod.mk.injEq] at h
            have l0 := read_preceding_bytes_length h0
            have l1 := read_subsequent_bytes_length h1
            have l2 := read_subsequent_bytes_length h2
            have l3 := read_subsequent_bytes_length h3
            have l4 := read_subsequent_bytes_length h4
            obtain ⟨-, hrest⟩ := h
            subst hrest
            omega

/-- The record loop of `XAuthEntry::parse` (`src/auth.rs` lines 85-88):
`while let Ok(record) = read_xauth_entry(..)` accumulates records and
stops — returning what it has, with no error — on the first record that
cannot be fully read. -/
def XAuthEntry.parse (bytes : List Nat) : List XAuthEntry :=
  match h : read_xauth_entry bytes with
  | none => []
  | some (e, rest) => e :: XAuthEntry.parse rest
termination_by bytes.length
decreasing_by exact read_xauth_entry_length h

/-- Big-endian 2-byte encoding of a 16-bit value, MSB first — the inverse
of `read_preceding_bytes`, used to state what a well-formed credential
record looks like on the wire. -/
def be16 (n : Nat) : List Nat := [n / 256, n % 256]

/-- The wire form of one well-formed credential record: 2-byte big-endian
family, then four sections each preceded by a 2-byte big-endian length. -/
def encodeEntry (e : XAuthEntry) : List Nat :=
  be16 e.family
    ++ (be16 e.address.length ++ e.address)
    ++ (be16 e.display_number.length ++ e.display_number)
    ++ (be16 e.authorization_protocol_name.length ++ e.authorization_protocol_name)
    ++ (be16 e.authorization_protocol_data.length ++ e.authorization_protocol_data)

/-- A credential record whose family and section lengths fit the 2-byte
wire fields. -/
def WFEntry (e : XAuthEntry) : Prop :=
  e.family < 65536 ∧ e.address.length < 65536 ∧ e.display_number.length < 65536 ∧
    e.authorization_protocol_name.length < 65536 ∧
    e.authorization_protocol_data.length < 65536

instance (e : XAuthEntry) : Decidable (WFEntry e) := by
  unfold WFEntry
  infer_instance

lemma read_preceding_bytes_encode (n : Nat) (tail : List Nat) :
    read_preceding_bytes (be16 n ++ tail) = some (n, tail) := by
  simp only [be16, List.cons_append, List.nil_append, read_preceding_bytes,
    Option.some.injEq, Prod.mk.injEq]
  exact ⟨by omega, trivial⟩

lemma read_subsequent_bytes_encode (l tail : List Nat) :
    read_subsequent_bytes (be16 l.length ++ (l ++ tail)) = some (l, tail) := by
  simp only [read_subsequent_bytes, read_preceding_bytes_encode]
  rw [if_neg (by simp)]
  rw [List.take_left, List.drop_left]

lemma read_xauth_entry_encode (e : XAuthEntry) (tail : List Nat) :
    read_xauth_entry (encodeEntry e ++ tail) = some (e, tail) := by
  simp only [read_xauth_entry, encodeEntry, List.append_assoc,
    read_preceding_bytes_encode, read_subsequent_bytes_encode]

lemma xauth_parse_nil {bytes : List Nat} (h : read_xauth_entry bytes = none) :
    XAuthEntry.parse bytes = [] := by
  rw [XAuthEntry.parse.eq_def, h]

lemma xauth_parse_cons {bytes rest : List Nat} {e : XAuthEntry}
    (h : read_xauth_entry bytes = some (e, rest)) :
    XAuthEntry.parse bytes = e :: XAuthEntry.parse rest := by
  rw [XAuthEntry.parse.eq_def, h]

/-- Claim C4: a byte stream of exactly `K` well-formed credential records
followed by trailing bytes too short to form another record parses to
exactly those `K` entries in stream order; the short read on the
trailing bytes ends the sequence with no partial entry and no error (the
parse is total — the source unconditionally returns `Ok` of the
accumulated records). -/
theorem xauth_parse_records (records : List XAuthEntry) (trailing : List Nat)
    (hwf : ∀ e ∈ records, WFEntry e)
    (htrail : read_xauth_entry trailing = none) :
    XAuthEntry.parse ((records.map encodeEntry).flatten ++ trailing) = records := by
  induction records with
  | nil => simpa using xauth_parse_nil htrail
  | cons e rs ih =>
    have hrec : XAuthEntry.parse ((rs.map encodeEntry).flatten ++ trailing) = rs :=
      ih (fun x hx => hwf x (List.mem_cons_of_mem e hx))
    rw [List.map_cons, List.flatten_cons, List.append_assoc]
    rw [xauth_parse_cons (read_xauth_entry_encode e ((rs.map encodeEntry).flatten ++ trailing))]
    rw [hrec]

/-- Witness for C4: one concrete record (family 1, a 4-byte address,
display `"0"`, name `"MIT"`, a 4-byte cookie) followed by a 3-byte
truncated tail parses to exactly that record. -/
theorem xauth_parse_records_witness :
    XAuthEntry.parse
        (([⟨1, [127, 0, 0, 1], [48], [77, 73, 84], [222, 173, 190, 239]⟩].map
            encodeEntry).flatten ++ [0, 5, 0])
      = [⟨1, [127, 0, 0, 1], [48], [77, 73, 84], [222, 173, 190, 239]⟩] :=
  xauth_parse_records [⟨1, [127, 0, 0, 1], [48], [77, 73, 84], [222, 173, 190, 239]⟩]
    [0, 5, 0] (by decide) (by decide)

end Mousetrap
